import Mathlib

/-!
Verification development for the `new-pkl` repository: a shallow embedding of
the tokenizer's numeric-literal callbacks (src/lexer.rs), the value and unit
conversion layer (src/table/duration.rs, src/table/data_size.rs,
src/table/bool_api.rs, src/table/string_api.rs) and the evaluator
(src/table.rs, src/lib.rs), together with theorems settling the claims about
this code.

Modelling conventions:
* Rust `i64`/`u64` are modelled as `Int`/`Nat` with explicit range checks
  where the source performs them (`parse::<i64>`, `from_str_radix`, `as u64`).
* Rust `f64` arithmetic is idealised as exact rational (`ℚ`) arithmetic; every
  concrete computation relied on by a theorem is exact in `f64` as well, and
  the one divergence established (the duration unit factors) is a factor of
  ten, far outside any rounding effect.
* `HashMap` is modelled as an association list with key-replacing insertion;
  the source only observes maps through `insert`/`get`, which this models
  faithfully.
* A Rust panic (a bare `.unwrap()` in a logos callback, `unreachable!`) has no
  error value; where a panic is reachable the model returns `none` or a
  distinguished error, with a comment at the definition.
-/

/-- Byte range `start..end` attached to tokens, AST nodes and errors
(`std::ops::Range<usize>`); the `end` field is named `stop` because `end` is a
Lean keyword. -/
structure Span where
  start : Nat
  stop : Nat
deriving DecidableEq

/-- Result type of every fallible operation in the pipeline:
`PklResult<T> = Result<T, (String, Span)>` from src/parser.rs. -/
abbrev PklResult (α : Type) : Type := Except (String × Span) α

/-- Alias for `String` used in signatures declared inside namespaces that also
contain a `String` constructor (such as `PklValue.get_type`), where the bare
name would resolve to the constructor. -/
abbrev Str : Type := String

/-- Association-list lookup, the model of `HashMap::get`. -/
def lookupMap {α : Type} : List (String × α) → String → Option α
  | [], _ => none
  | (k', v) :: rest, k => if k' = k then some v else lookupMap rest k

/-- Association-list insertion replacing an existing binding in place, the
model of `HashMap::insert` (the returned previous value is not modelled; no
caller in the evaluator uses it). -/
def insertMap {α : Type} : List (String × α) → String → α → List (String × α)
  | [], k, v => [(k, v)]
  | (k', v') :: rest, k, v =>
    if k' = k then (k, v) :: rest else (k', v') :: insertMap rest k v

theorem lookupMap_insertMap {α : Type} (m : List (String × α)) (k k' : String) (v : α) :
    lookupMap (insertMap m k v) k' = if k = k' then some v else lookupMap m k' := by
  induction m with
  | nil =>
    by_cases h : k = k' <;> simp [insertMap, lookupMap, h]
  | cons p rest ih =>
    obtain ⟨k₀, v₀⟩ := p
    by_cases h0 : k₀ = k
    · subst h0
      by_cases h : k₀ = k' <;> simp [insertMap, lookupMap, h]
    · by_cases h : k₀ = k'
      · subst h
        have : k ≠ k₀ := fun hh => h0 hh.symm
        simp [insertMap, lookupMap, h0, this, ih]
      · simp [insertMap, lookupMap, h0, h, ih]

/- ### Tokenizer: numeric literal callbacks (src/lexer.rs)

The logos callbacks attached to `PklToken::Int`, `HexInt`, `OctalInt` and
`BinaryInt` are modelled on the matched slice, taken as a `List Char` (all
slices involved are ASCII, so bytes and chars coincide).  Each callback
returns a bare `i64` in the source and calls `.unwrap()` on the string-to-int
conversion: there is no error path, so a conversion failure (for example a
64-bit overflow) PANICS.  The model returns `Option Int`, and `none` means
precisely that panic, not a `LexError`. -/

/-- Underscore removal performed by every numeric callback before conversion
(`raw.chars().filter(|&c| c != '_')`). -/
def stripUnderscores (s : List Char) : List Char := s.filter (· ≠ '_')

/-- Value of one ASCII digit character, as accepted by Rust's
`char::to_digit` for radixes up to 16 (case-insensitive). -/
def charHexVal? (c : Char) : Option Nat :=
  if '0' ≤ c ∧ c ≤ '9' then some (c.toNat - 48)
  else if 'a' ≤ c ∧ c ≤ 'f' then some (c.toNat - 87)
  else if 'A' ≤ c ∧ c ≤ 'F' then some (c.toNat - 55)
  else none

/-- Digit value in a given base: `char::to_digit(base)`. -/
def digitVal? (base : Nat) (c : Char) : Option Nat :=
  match charHexVal? c with
  | some v => if v < base then some v else none
  | none => none

def natOfDigitsAux (base : Nat) (acc : Nat) : List Char → Option Nat
  | [] => some acc
  | c :: rest =>
    match digitVal? base c with
    | none => none
    | some d => natOfDigitsAux base (acc * base + d) rest

/-- Unsigned digit-string conversion in a given base; `none` on an empty
string or an invalid digit. -/
def natOfDigits? (base : Nat) (s : List Char) : Option Nat :=
  match s with
  | [] => none
  | _ => natOfDigitsAux base 0 s

/-- Model of `i64::from_str_radix` on the sign-free digit strings produced by
the lexer's prefixed-radix callbacks: the value must fit in a non-negative
`i64`, i.e. be at most `2^63 - 1`, else the conversion errors (and the
caller's `.unwrap()` panics). -/
def from_str_radix (base : Nat) (s : List Char) : Option Int :=
  match natOfDigits? base s with
  | none => none
  | some n => if (n : Int) ≤ 2 ^ 63 - 1 then some (n : Int) else none

/-- Model of `str::parse::<i64>` after underscore stripping: an optional
leading sign followed by decimal digits, range-checked against
`[-2^63, 2^63 - 1]`. -/
def parse_i64 (s : List Char) : Option Int :=
  if s.head? = some '-' then
    (natOfDigits? 10 s.tail).bind fun n =>
      if (n : Int) ≤ 2 ^ 63 then some (-(n : Int)) else none
  else if s.head? = some '+' then
    (natOfDigits? 10 s.tail).bind fun n =>
      if (n : Int) ≤ 2 ^ 63 - 1 then some (n : Int) else none
  else
    (natOfDigits? 10 s).bind fun n =>
      if (n : Int) ≤ 2 ^ 63 - 1 then some (n : Int) else none

/-- Callback of `PklToken::Int` (src/lexer.rs lines 19-25): strip underscores,
then `clean_raw.parse::<i64>().unwrap()`.  `none` models the PANIC of the
unwrap on overflow — the callback has no `LexError` path. -/
def lexInt (s : List Char) : Option Int :=
  parse_i64 (stripUnderscores s)

/-- Callback of `PklToken::HexInt` (src/lexer.rs lines 27-46): on a leading
`-`, skip `-0x` (3 chars), else skip `0x` (2 chars); strip underscores; parse
the magnitude with `i64::from_str_radix(…, 16).unwrap()` (PANIC modelled as
`none`); negate afterwards if a sign was present. -/
def lexHexInt (s : List Char) : Option Int :=
  match from_str_radix 16
      (stripUnderscores (if s.head? = some '-' then s.drop 3 else s.drop 2)) with
  | none => none
  | some value => some (if s.head? = some '-' then -value else value)

/-- Callback of `PklToken::BinaryInt` (src/lexer.rs lines 48-67), same shape
as the hex callback with radix 2 and marker `0b`. -/
def lexBinaryInt (s : List Char) : Option Int :=
  match from_str_radix 2
      (stripUnderscores (if s.head? = some '-' then s.drop 3 else s.drop 2)) with
  | none => none
  | some value => some (if s.head? = some '-' then -value else value)

/-- Callback of `PklToken::OctalInt` (src/lexer.rs lines 69-88), same shape as
the hex callback with radix 8 and marker `0o`. -/
def lexOctalInt (s : List Char) : Option Int :=
  match from_str_radix 8
      (stripUnderscores (if s.head? = some '-' then s.drop 3 else s.drop 2)) with
  | none => none
  | some value => some (if s.head? = some '-' then -value else value)

/- Canonical digit rendering used to state the round-trip claim. -/

/-- Lower-case digit character for values below 16 (the claim's canonical
literal spelling). -/
def digitToChar (d : Nat) : Char :=
  match d with
  | 0 => '0' | 1 => '1' | 2 => '2' | 3 => '3' | 4 => '4'
  | 5 => '5' | 6 => '6' | 7 => '7' | 8 => '8' | 9 => '9'
  | 10 => 'a' | 11 => 'b' | 12 => 'c' | 13 => 'd' | 14 => 'e' | 15 => 'f'
  | _ => '0'

/-- Canonical most-significant-first digit string of `n` in base `b`. -/
def natDigitsChars (b n : Nat) : List Char :=
  if n = 0 then ['0'] else ((Nat.digits b n).reverse.map digitToChar)

/-- Textual literal of `v` in a prefixed radix (marker char `x`, `o` or `b`),
with digit-and-underscore body `ds`. -/
def radixLiteral (marker : Char) (v : Int) (ds : List Char) : List Char :=
  (if v < 0 then ['-'] else []) ++ ['0', marker] ++ ds

/-- Textual decimal literal of `v` with digit-and-underscore body `ds`. -/
def decLiteral (v : Int) (ds : List Char) : List Char :=
  (if v < 0 then ['-'] else []) ++ ds

/- ### Value layer (src/table.rs, src/table/duration.rs, src/table/data_size.rs) -/

/-- Duration units (src/table/duration.rs `enum Unit`); named `DurationUnit`
because `Unit` is taken by Lean. -/
inductive DurationUnit : Type
  | NS | US | MS | S | MIN | H | D
deriving DecidableEq

/-- Data-size units (src/table/data_size.rs `enum Unit`). -/
inductive DataSizeUnit : Type
  | B | KB | MB | GB | TB | PB | KiB | MiB | GiB | TiB | PiB
deriving DecidableEq

/-- Case-insensitive unit parsing, src/table/duration.rs `Unit::from_str`. -/
def DurationUnit.from_str (s : String) : Option DurationUnit :=
  match s.toLower with
  | "ns" => some .NS
  | "us" => some .US
  | "ms" => some .MS
  | "s" => some .S
  | "min" => some .MIN
  | "h" => some .H
  | "d" => some .D
  | _ => none

/-- Case-insensitive unit parsing, src/table/data_size.rs `Unit::from_str`. -/
def DataSizeUnit.from_str (s : String) : Option DataSizeUnit :=
  match s.toLower with
  | "b" => some .B
  | "kb" => some .KB
  | "mb" => some .MB
  | "gb" => some .GB
  | "tb" => some .TB
  | "pb" => some .PB
  | "kib" => some .KiB
  | "mib" => some .MiB
  | "gib" => some .GiB
  | "tib" => some .TiB
  | "pib" => some .PiB
  | _ => none

/-- Display strings of duration units (src/table/duration.rs `impl Display`). -/
def DurationUnit.unit_str : DurationUnit → String
  | .NS => "ns" | .US => "us" | .MS => "ms" | .S => "s"
  | .MIN => "min" | .H => "h" | .D => "d"

/-- Saturating truncating `f64 as u64` cast used by
`Byte::from_value_and_unit` (negative values clamp to 0, values above
`u64::MAX` clamp to `2^64 - 1`; non-negative values truncate toward zero,
i.e. floor). -/
def rat_as_u64 (q : ℚ) : Nat :=
  if q < 0 then 0 else min (2 ^ 64 - 1) (Int.toNat ⌊q⌋)

/-- Data size in bytes, src/table/data_size.rs `struct Byte`. -/
structure Byte : Type where
  bytes : Nat
deriving DecidableEq

/-- Byte count from a numeric value and a unit, src/table/data_size.rs lines
58-76: decimal units multiply by powers of 1000, binary units by powers of
1024; the product is cast `as u64`. -/
def Byte.from_value_and_unit (value : ℚ) (unit : DataSizeUnit) : Byte :=
  let bytes : ℚ :=
    match unit with
    | .B => value
    | .KB => value * 1000
    | .MB => value * 1000000
    | .GB => value * 1000000000
    | .TB => value * 1000000000000
    | .PB => value * 1000000000000000
    | .KiB => value * 1024
    | .MiB => value * 1024 * 1024
    | .GiB => value * 1024 * 1024 * 1024
    | .TiB => value * 1024 * 1024 * 1024 * 1024
    | .PiB => value * 1024 * 1024 * 1024 * 1024 * 1024
  ⟨rat_as_u64 bytes⟩

mutual
/-- Evaluated values, src/table.rs `enum PklValue`.  `Float` carries a
rational (idealised `f64`). -/
inductive PklValue : Type
  | Bool (b : Bool)
  | Float (f : ℚ)
  | Int (i : Int)
  | String (s : String)
  | Char (c : Char)
  | List (xs : List PklValue)
  | Object (fields : List (String × PklValue))
  | ClassInstance (name : String) (fields : List (String × PklValue))
  | Duration (d : PklDuration)
  | DataSize (b : Byte)

/-- Durations, src/table/duration.rs `struct Duration`: the canonical second
count (a `std::time::Duration` built by `from_secs_f64`, idealised as an exact
non-negative rational), the original literal value, the unit tag and the sign
flag.  Named `PklDuration` because the constructor `PklValue.Duration` would
otherwise clash with the type inside the mutual block. -/
inductive PklDuration : Type
  | mk (duration : ℚ) (initial_value : PklValue) (unit : DurationUnit)
      (is_negative : Bool)
end

/-- Seconds stored in the duration (the `duration: StdDuration` field). -/
def PklDuration.duration : PklDuration → ℚ
  | .mk d _ _ _ => d

/-- The `initial_value` field. -/
def PklDuration.initial_value : PklDuration → PklValue
  | .mk _ v _ _ => v

/-- The `unit` field. -/
def PklDuration.unit : PklDuration → DurationUnit
  | .mk _ _ u _ => u

/-- The `is_negative` field. -/
def PklDuration.is_negative : PklDuration → Bool
  | .mk _ _ _ n => n

/-- Duration from an integer literal and a unit, src/table/duration.rs lines
91-116.  The per-unit factors transcribe the source literally: the source
multiplies by `10e-9`, `10e-6` and `10e-3` for ns/us/ms, and in Rust (as
here) `10e-9 = 10 × 10⁻⁹ = 10⁻⁸`, not `10⁻⁹`. -/
def PklDuration.from_int_and_unit (value : Int) (unit : DurationUnit) : PklDuration :=
  let initial_value := PklValue.Int value
  let is_negative : Bool := decide (value < 0)
  let v : ℚ := if value < 0 then |(value : ℚ)| else (value : ℚ)
  let duration : ℚ :=
    match unit with
    | .NS => v * (10 / 10 ^ 9)
    | .US => v * (10 / 10 ^ 6)
    | .MS => v * (10 / 10 ^ 3)
    | .S => v
    | .MIN => v * 60
    | .H => v * 60 * 60
    | .D => v * 60 * 60 * 24
  ⟨duration, initial_value, unit, is_negative⟩

/-- Duration from a float literal and a unit, src/table/duration.rs lines
68-89 (same factors; the sign test `is_sign_negative` is idealised as `< 0`,
exact for every non-zero value). -/
def PklDuration.from_float_and_unit (value : ℚ) (unit : DurationUnit) : PklDuration :=
  let initial_value := PklValue.Float value
  let is_negative : Bool := decide (value < 0)
  let v : ℚ := if value < 0 then |value| else value
  let duration : ℚ :=
    match unit with
    | .NS => v * (10 / 10 ^ 9)
    | .US => v * (10 / 10 ^ 6)
    | .MS => v * (10 / 10 ^ 3)
    | .S => v
    | .MIN => v * 60
    | .H => v * 60 * 60
    | .D => v * 60 * 60 * 24
  ⟨duration, initial_value, unit, is_negative⟩

/-- Modelled from the spec: `PklValue::get_type`, the runtime type tag used by
builtin-method argument validation, is not among the provided sources (only
its caller src/table/bool_api.rs is); the spec describes it as "each
argument's runtime type tag".  The tag is the variant name; only the `Bool`
tag is relied on by any proof, and it is forced to be `"Bool"` by the
`stringify!(Bool)` comparison in bool_api.rs. -/
def PklValue.get_type : PklValue → Str
  | .Bool _ => "Bool"
  | .Float _ => "Float"
  | .Int _ => "Int"
  | .String _ => "String"
  | .Char _ => "Char"
  | .List _ => "List"
  | .Object _ => "Object"
  | .ClassInstance _ _ => "ClassInstance"
  | .Duration _ => "Duration"
  | .DataSize _ => "DataSize"

/-- Abridged model of the derived `Debug` rendering of a value, used only
inside the evaluator's "Indexing of value '{:?}' not yet supported" message.
Scalar payloads are rendered near-literally (`Bool(true)`, `Int(3)`);
composite and float payloads are abbreviated, and String quoting and escaping
are dropped, as no theorem depends on them — the proofs only ever render
`Bool` values, where this matches Rust exactly. -/
def debugRepr : PklValue → String
  | .Bool b => "Bool(" ++ (if b then "true" else "false") ++ ")"
  | .Int i => "Int(" ++ toString i ++ ")"
  | .String s => "String(" ++ s ++ ")"
  | .Char c => "Char('" ++ String.mk [c] ++ "')"
  | .Float _ => "Float(_)"
  | .List _ => "List(_)"
  | .Object _ => "Object(_)"
  | .ClassInstance _ _ => "ClassInstance(_)"
  | .Duration _ => "Duration(_)"
  | .DataSize b => "DataSize(" ++ toString b.bytes ++ ")"

/- ### Builtin method/property tables -/

/-- Boolean method dispatch, src/table/bool_api.rs `match_bool_methods_api`
(lines 94-144).  Each method body is produced by the `generate_method!` macro,
which (1) rejects a wrong argument count, (2) rejects an argument whose
runtime type tag differs from the expected one, and only then (3) runs the
action on the destructured argument.  `xor` computes `bool_value ^ other`,
`implies` computes `!bool_value || other`. -/
def match_bool_methods_api (bool_value : Bool) (fn_name : String)
    (args : List PklValue) (range : Span) : PklResult PklValue :=
  match fn_name with
  | "xor" =>
    match args with
    | [a] =>
      if a.get_type ≠ "Bool" then
        .error ("xor method expects argument at index 0 to be of type Bool, but found "
          ++ a.get_type, range)
      else
        match a with
        | .Bool other_bool => .ok (.Bool (Bool.xor bool_value other_bool))
        | _ =>
          .error ("xor method expects argument at index 0 to be of type Bool, but found "
            ++ a.get_type, range)
    | _ => .error ("Boolean expects 'xor' method to take exactly 1 argument(s)", range)
  | "implies" =>
    match args with
    | [a] =>
      if a.get_type ≠ "Bool" then
        .error ("implies method expects argument at index 0 to be of type Bool, but found "
          ++ a.get_type, range)
      else
        match a with
        | .Bool other_bool => .ok (.Bool (!bool_value || other_bool))
        | _ =>
          .error ("implies method expects argument at index 0 to be of type Bool, but found "
            ++ a.get_type, range)
    | _ => .error ("Boolean expects 'implies' method to take exactly 1 argument(s)", range)
  | _ => .error ("Boolean does not possess " ++ fn_name ++ " method", range)

/-- Duration property table, src/table/duration.rs `match_duration_props_api`
(including the source's copy-pasted "DataSize does not possess" message). -/
def match_duration_props_api (duration : PklDuration) (property : String)
    (range : Span) : PklResult PklValue :=
  match property with
  | "value" => .ok duration.initial_value
  | "unit" => .ok (.String duration.unit.unit_str)
  | "isPositive" => .ok (.Bool (!duration.is_negative))
  | _ => .error ("DataSize does not possess " ++ property ++ " property", range)

/-- Standard base64 alphabet (the `BASE64_STANDARD` engine of the base64
crate: standard alphabet, padding). -/
def base64Table : List Char :=
  "ABCDEFGHIJKLMNOPQRSTUVWXYZabcdefghijklmnopqrstuvwxyz0123456789+/".toList

/-- Base64-encode a byte list (3 bytes to 4 chars, `=` padding). -/
def base64EncodeBytes : List Nat → List Char
  | b1 :: b2 :: b3 :: rest =>
    let n := b1 % 256 * 65536 + b2 % 256 * 256 + b3 % 256
    base64Table.getD (n / 262144) 'A' :: base64Table.getD (n / 4096 % 64) 'A'
      :: base64Table.getD (n / 64 % 64) 'A' :: base64Table.getD (n % 64) 'A'
      :: base64EncodeBytes rest
  | [b1, b2] =>
    let n := b1 % 256 * 65536 + b2 % 256 * 256
    [base64Table.getD (n / 262144) 'A', base64Table.getD (n / 4096 % 64) 'A',
      base64Table.getD (n / 64 % 64) 'A', '=']
  | [b1] =>
    let n := b1 % 256 * 65536
    [base64Table.getD (n / 262144) 'A', base64Table.getD (n / 4096 % 64) 'A', '=', '=']
  | [] => []

/-- Index of a character in the base64 alphabet. -/
def base64CharVal? (c : Char) : Option Nat := base64Table.indexOf? c

/-- Base64-decode a character list; `none` models the decode errors of the
base64 crate (invalid symbol, invalid length, misplaced padding; the crate's
finer-grained trailing-bit checks are abstracted, no theorem depends on
decoding). -/
def base64DecodeChars : List Char → Option (List Nat)
  | [] => some []
  | c1 :: c2 :: c3 :: c4 :: rest =>
    match base64CharVal? c1, base64CharVal? c2 with
    | some v1, some v2 =>
      if c3 = '=' then
        if c4 = '=' ∧ rest = [] then some [v1 * 4 + v2 / 16] else none
      else
        match base64CharVal? c3 with
        | some v3 =>
          if c4 = '=' then
            if rest = [] then some [v1 * 4 + v2 / 16, v2 % 16 * 16 + v3 / 4] else none
          else
            match base64CharVal? c4 with
            | some v4 =>
              (base64DecodeChars rest).map
                (fun bs => (v1 * 4 + v2 / 16) :: (v2 % 16 * 16 + v3 / 4)
                  :: (v3 % 4 * 64 + v4) :: bs)
            | none => none
        | none => none
    | _, _ => none
  | _ => none

/-- UTF-8 bytes of a string, as `Nat`s. -/
def utf8Bytes (s : String) : List Nat :=
  s.toUTF8.toList.map (fun b => b.toNat)

/-- Rebuild a string from UTF-8 bytes, `none` on invalid UTF-8. -/
def stringFromBytes? (bs : List Nat) : Option String :=
  String.fromUTF8? ⟨⟨bs.map Nat.toUInt8⟩⟩

/-- String property/method table, src/table/string_api.rs
`match_string_props_api` (lines 6-84).  `length` is the byte count `s.len()`;
the base64 error-message payloads produced by the base64 crate's `Display`
impls are abstracted to fixed texts (no theorem depends on them). -/
def match_string_props_api (s : String) (property : String) (range : Span) :
    PklResult PklValue :=
  match property with
  | "length" => .ok (.Int (s.utf8ByteSize : Int))
  | "lastIndex" =>
    .ok (.Int (if s.utf8ByteSize = 0 then -1 else ((s.utf8ByteSize - 1 : Nat) : Int)))
  | "isEmpty" => .ok (.Bool (s.utf8ByteSize = 0))
  | "isBlank" => .ok (.Bool (s.trim.utf8ByteSize = 0))
  | "isRegex" => .error ("isRegex String API method not yet supported", range)
  | "md5" => .error ("md5 String API method not yet supported", range)
  | "sha1" => .error ("sha1 String API method not yet supported", range)
  | "sha256" => .error ("sha256 String API method not yet supported", range)
  | "sha256Int" => .error ("sha256Int String API method not yet supported", range)
  | "base64" => .ok (.String (String.mk (base64EncodeBytes (utf8Bytes s))))
  | "base64Decoded" =>
    match base64DecodeChars s.toList with
    | none => .error ("Failed to decode base64: invalid input", range)
    | some buf =>
      match stringFromBytes? buf with
      | none => .error ("Invalid UTF-8 sequence: invalid input", range)
      | some out => .ok (.String out)
  | "chars" => .ok (.List (s.toList.map PklValue.Char))
  | "codePoints" => .ok (.List (s.toList.map (fun c => PklValue.Int (c.toNat : Int))))
  | _ => .error ("String does not possess " ++ property ++ " property", range)

/-- Modelled from the spec: `match_int_props_api` lives in
src/table/int_api.rs, which is not among the provided sources (src/table.rs
declares and calls it).  Spec §4.4: "given a numeric base and a property name,
first attempt to parse the name as a Duration unit; if that fails, attempt a
DataSize unit … No other property names are valid on bare numbers."  The
DataSize path converts the integer through `as f64` (exact for all unit
examples in play). -/
def match_int_props_api (int : Int) (property : String) (range : Span) :
    PklResult PklValue :=
  match DurationUnit.from_str property with
  | some unit => .ok (.Duration (PklDuration.from_int_and_unit int unit))
  | none =>
    match DataSizeUnit.from_str property with
    | some unit => .ok (.DataSize (Byte.from_value_and_unit (int : ℚ) unit))
    | none => .error ("Int does not possess " ++ property ++ " property", range)

/-- Modelled from the spec: `match_float_props_api` lives in
src/table/float_api.rs, which is not among the provided sources; same
unit-dispatch contract as the int table, over the float value. -/
def match_float_props_api (float : ℚ) (property : String) (range : Span) :
    PklResult PklValue :=
  match DurationUnit.from_str property with
  | some unit => .ok (.Duration (PklDuration.from_float_and_unit float unit))
  | none =>
    match DataSizeUnit.from_str property with
    | some unit => .ok (.DataSize (Byte.from_value_and_unit float unit))
    | none => .error ("Float does not possess " ++ property ++ " property", range)

/- ### AST (src/parser.rs, as consumed by src/table.rs) -/

mutual
/-- Expressions, `enum PklExpr`: an unresolved identifier, a literal or
composite value, or a member access `base.property` whose `indexor` is an
`Identifier` struct (its name and its own span are inlined here). -/
inductive PklExpr : Type
  | Identifier (id : String) (range : Span)
  | Value (v : AstPklValue)
  | MemberExpression (base : PklExpr) (indexor : String) (indexorRange : Span)
      (range : Span)

/-- Parsed values, `enum AstPklValue`.  `ExprHash` — `(HashMap<&str, PklExpr>,
Range)` — is inlined as an association list plus the span argument of each
constructor that carries one. -/
inductive AstPklValue : Type
  | Bool (b : Bool) (range : Span)
  | Float (f : ℚ) (range : Span)
  | Int (i : Int) (range : Span)
  | String (s : String) (range : Span)
  | MultiLineString (s : String) (range : Span)
  | List (elems : List PklExpr) (range : Span)
  | Object (fields : List (String × PklExpr)) (range : Span)
  | ClassInstance (name : String) (fields : List (String × PklExpr)) (range : Span)
  | AmendingObject (base : String) (fields : List (String × PklExpr)) (range : Span)
  | AmendedObject (base : AstPklValue) (fields : List (String × PklExpr)) (range : Span)
end

/-- Top-level statements, `enum PklStatement` (the variants used by
src/table.rs `ast_to_table`): a constant binding or an import with an
optional alias. -/
inductive PklStatement : Type
  | Constant (name : String) (expr : PklExpr) (range : Span)
  | Import (value : String) (local_name : Option String) (range : Span)

/-- The evaluator's table, src/table.rs `struct PklTable`: the flat variable
namespace (source field `variables`; that word is a reserved token in this
Lean, so the field is called `vars`) plus the — never actually populated —
list of resolved imports. -/
structure PklTable : Type where
  vars : List (String × PklValue)
  imports : List String

/-- `PklTable::new`. -/
def PklTable.new : PklTable := ⟨[], []⟩

/-- `PklTable::get` (and the `self.variables.get` used inside `evaluate`). -/
def PklTable.get (t : PklTable) (name : String) : Option PklValue :=
  lookupMap t.vars name

/-- `PklTable::insert`: the map update (the returned previous value is unused
by every caller in the evaluator and is not modelled). -/
def PklTable.insert (t : PklTable) (name : String) (value : PklValue) : PklTable :=
  { t with vars := insertMap t.vars name value }

/-- `PklTable::extends`: insert every binding of `other_table` into `t`,
overwriting on collision. -/
def PklTable.extends_table (t : PklTable) (other_table : PklTable) : PklTable :=
  other_table.vars.foldl (fun acc p => acc.insert p.1 p.2) t

/- The evaluation methods of `PklTable` (src/table.rs lines 183-318) access
`self` exclusively through `self.variables` (directly or via `self.get`); the
recursive workers below therefore take the variables map itself, and the
`PklTable` methods wrap them.  `evalFieldsInto` is the shared model of both
the `collect::<Result<HashMap<_,_>,_>>` of `evaluate_object` /
`evaluate_class_instance` and the explicit insert loops of
`evaluate_amending_object` / `evaluate_amended_object`: in each case every
field expression is evaluated in order and inserted into the accumulating
map, stopping at the first error. -/

mutual
/-- `PklTable::evaluate` (src/table.rs lines 183-218), on the variables map. -/
def evalExpr (vars : List (String × PklValue)) : PklExpr → PklResult PklValue
  | .Identifier id range =>
    match lookupMap vars id with
    | some v => .ok v
    | none => .error ("unknown variable `" ++ id ++ "`", range)
  | .Value value => evalValue vars value
  | .MemberExpression base_expr indexor _indexorRange range =>
    match evalExpr vars base_expr with
    | .error e => .error e
    | .ok base =>
      match base with
      | .Int int => match_int_props_api int indexor range
      | .Float float => match_float_props_api float indexor range
      | .Object hashmap =>
        match lookupMap hashmap indexor with
        | some data => .ok data
        | none =>
          .error ("Object does not possess a '" ++ indexor ++ "' field", range)
      | .String s => match_string_props_api s indexor range
      | other =>
        .error ("Indexing of value '" ++ debugRepr other ++ "' not yet supported", range)

/-- `PklTable::evaluate_value` (src/table.rs lines 229-318, with the helper
methods it dispatches to inlined by constructor).  The `unreachable!` panic of
`evaluate_amended_object` on a non-`Object` base is modelled as a
distinguished error carrying the source's panic text. -/
def evalValue (vars : List (String × PklValue)) : AstPklValue → PklResult PklValue
  | .Bool b _ => .ok (.Bool b)
  | .Float f _ => .ok (.Float f)
  | .Int i _ => .ok (.Int i)
  | .String s _ => .ok (.String s)
  | .MultiLineString s _ => .ok (.String s)
  | .List values _ =>
    match evalList vars values with
    | .error e => .error e
    | .ok xs => .ok (.List xs)
  | .Object fields _ =>
    match evalFieldsInto vars [] fields with
    | .error e => .error e
    | .ok m => .ok (.Object m)
  | .ClassInstance a fields _ =>
    match evalFieldsInto vars [] fields with
    | .error e => .error e
    | .ok m => .ok (.ClassInstance a m)
  | .AmendedObject a b _ =>
    match evalValue vars a with
    | .error e => .error e
    | .ok (.Object first_object) =>
      match evalFieldsInto vars first_object b with
      | .error e => .error e
      | .ok m => .ok (.Object m)
    | .ok _ => .error ("should not be reached due to the parser work", ⟨0, 0⟩)
  | .AmendingObject a b rng =>
    match lookupMap vars a with
    | some (.Object other_object) =>
      match evalFieldsInto vars other_object b with
      | .error e => .error e
      | .ok m => .ok (.Object m)
    | _ => .error ("Unknown object `" ++ a ++ "`", rng)

/-- `PklTable::evaluate_list`: evaluate every element in order, first error
wins. -/
def evalList (vars : List (String × PklValue)) : List PklExpr → PklResult (List PklValue)
  | [] => .ok []
  | e :: rest =>
    match evalExpr vars e with
    | .error err => .error err
    | .ok v =>
      match evalList vars rest with
      | .error err => .error err
      | .ok xs => .ok (v :: xs)

/-- Shared field-evaluation loop: evaluate each field expression in order and
insert it into `acc`, overwriting on key collision, stopping at the first
error. -/
def evalFieldsInto (vars : List (String × PklValue))
    (acc : List (String × PklValue)) :
    List (String × PklExpr) → PklResult (List (String × PklValue))
  | [] => .ok acc
  | (name, e) :: rest =>
    match evalExpr vars e with
    | .error err => .error err
    | .ok v => evalFieldsInto vars (insertMap acc name v) rest
end

/-- `PklTable::evaluate`, the `&self` method: evaluation reads the table only
through its variables map and returns only a value — it cannot mutate the
table (in the source this is enforced by the shared borrow). -/
def PklTable.evaluate (t : PklTable) (expr : PklExpr) : PklResult PklValue :=
  evalExpr t.vars expr

/- ### Statement processing and the interpreter (src/table.rs `ast_to_table`,
`PklTable::import`; src/lib.rs `Pkl`) -/

/-- Environment oracles for the effectful edges of the pipeline:
`fs` models `std::fs::read_to_string` (`none` = I/O error), and
`generate_ast` models `Pkl::generate_ast` — the lexing and recursive-descent
parsing of a source buffer (src/lexer.rs + src/parser.rs), which this
development treats at the AST boundary: documents are taken as parsed
statement lists, and the tokenizer is modelled separately at the
numeric-callback level. -/
structure Env : Type where
  fs : String → Option String
  generate_ast : String → PklResult (List PklStatement)

/-- The statement loop of `ast_to_table` (src/table.rs lines 321-347),
returning the table together with the `in_body` flag so that processing
composes over list append.  `importFn` is the import handler the loop invokes
on an `Import` statement (`table.import(value, rng)?`); it is a parameter so
that the loop stays structurally recursive, and `runStmts` below instantiates
it with `tableImport`. -/
def runStmtsF (env : Env) (importFn : String → Span → PklResult Unit) :
    List PklStatement → PklTable → Bool → PklResult (PklTable × Bool)
  | [], table, in_body => .ok (table, in_body)
  | .Constant name expr _ :: rest, table, _ =>
    match table.evaluate expr with
    | .error e => .error e
    | .ok v => runStmtsF env importFn rest (table.insert name v) true
  | .Import value _local rng :: rest, table, in_body =>
    if in_body then
      .error ("Import statements must be before document body", rng)
    else
      match importFn value rng with
      | .error e => .error e
      | .ok _ => runStmtsF env importFn rest table in_body

/-- Model of `str::starts_with` on a literal prefix (structural, so that
concrete imports compute definitionally; `String.startsWith` itself is
compiled by well-founded recursion and does not reduce in the kernel). -/
def strStartsWith (s pre : String) : Bool :=
  pre.toList.isPrefixOf s.toList

/-- `PklTable::import` (src/table.rs lines 145-172), by recursion on
the depth `fuel` of nested imports: reject the unsupported `package://`, `pkl:` and
`https://` schemes; otherwise read the file (`env.fs`), re-enter the whole
pipeline on its content (`Pkl::new().parse(&file_content)?`, modelled by
`generate_ast` plus the statement loop one fuel level down), and — crucially —
DISCARD the resulting table: the source merely `println!`s it ("it does
not import for the moment, issue with lifetimes") and returns `Ok(())`, leaving
the current table untouched, which is why this model needs no table argument
at all.  The source recurses unboundedly on cyclic imports (spec section 5);
exhausted fuel models hitting that resource limit. -/
def tableImport (env : Env) : Nat → String → Span → PklResult Unit
  | 0 => fun _ rng => .error ("import recursion limit reached", rng)
  | fuel + 1 => fun value rng =>
    if strStartsWith value "package://" then
      .error ("Package imports not yet supported!", rng)
    else if strStartsWith value "pkl:" then
      .error ("Pkl official packages imports not yet supported!", rng)
    else if strStartsWith value "https://" then
      .error ("Web imports not yet supported!", rng)
    else
      match env.fs value with
      | none => .error ("Error reading " ++ value ++ ": io error", rng)
      | some file_content =>
        match env.generate_ast file_content with
        | .error e => .error e
        | .ok parsed =>
          match runStmtsF env (tableImport env fuel) parsed PklTable.new false with
          | .error e => .error e
          | .ok _ => .ok ()

/-- The statement loop at a given import depth. -/
def runStmts (env : Env) (fuel : Nat) (stmts : List PklStatement)
    (table : PklTable) (in_body : Bool) : PklResult (PklTable × Bool) :=
  runStmtsF env (tableImport env fuel) stmts table in_body

/-- `ast_to_table` (src/table.rs lines 321-347): run the statements over a
fresh table, in source order. -/
def ast_to_table (env : Env) (fuel : Nat) (ast : List PklStatement) :
    PklResult PklTable :=
  match runStmts env fuel ast PklTable.new false with
  | .error e => .error e
  | .ok (table, _) => .ok table

/-- The interpreter, src/lib.rs `struct Pkl`: a table plus the (never
updated) statement list. -/
structure Pkl : Type where
  table : PklTable
  ast : List PklStatement

/-- `Pkl::new`. -/
def Pkl.new : Pkl := ⟨PklTable.new, []⟩

/-- `Pkl::parse` (src/lib.rs lines 27-32): generate the AST, build the table,
and only on success assign it to `self.table` — both `?` early returns leave
`self` exactly as it was (the partially populated table built inside
`ast_to_table` is dropped).  Modelled state-passingly: the second component is
the interpreter after the call. -/
def Pkl.parse (env : Env) (fuel : Nat) (p : Pkl) (source : String) :
    PklResult Unit × Pkl :=
  match env.generate_ast source with
  | .error e => (.error e, p)
  | .ok parsed =>
    match ast_to_table env fuel parsed with
    | .error e => (.error e, p)
    | .ok table => (.ok (), { p with table := table })

/-- `Pkl::get`. -/
def Pkl.get (p : Pkl) (name : String) : Option PklValue :=
  p.table.get name

/-- `Pkl::set` (src/lib.rs lines 64-66), modelled as the map update. -/
def Pkl.set (p : Pkl) (name : String) (value : PklValue) : Pkl :=
  { p with table := p.table.insert name value }

/-- `Pkl::remove` (src/lib.rs lines 77-79), modelled as the map removal. -/
def Pkl.remove (p : Pkl) (name : String) : Pkl :=
  { p with table := { p.table with vars := p.table.vars.filter (·.1 ≠ name) } }

/- ### Helpers for stating the claims -/

/-- Does a parse-time field list bind key `k`? -/
def hasKey : List (String × PklExpr) → String → Bool
  | [], _ => false
  | (n, _) :: rest, k => n = k || hasKey rest k

/-- The expression of the LAST occurrence of key `k` in a field list (the
occurrence whose insertion wins). -/
def lastField : List (String × PklExpr) → String → Option PklExpr
  | [], _ => none
  | (n, e) :: rest, k =>
    match lastField rest k with
    | some e' => some e'
    | none => if n = k then some e else none

/-- Names bound by the `Constant` statements of a document. -/
def boundNames (stmts : List PklStatement) : List String :=
  stmts.filterMap fun s =>
    match s with
    | .Constant n _ _ => some n
    | .Import _ _ _ => none

/-- Zero span, used for concrete example documents. -/
def sp0 : Span := ⟨0, 0⟩

/-- Inert environment for documents that do not import anything. -/
def env0 : Env := ⟨fun _ => none, fun _ => .error ("no parse oracle", sp0)⟩

/- ### Digit-arithmetic lemmas for the tokenizer round-trip -/

theorem digitVal?_digitToChar (b d : Nat) (hb : b ≤ 16) (hd : d < b) :
    digitVal? b (digitToChar d) = some d := by
  have hd16 : d < 16 := lt_of_lt_of_le hd hb
  interval_cases d <;> simp_all [digitVal?, charHexVal?, digitToChar]

theorem natOfDigitsAux_map (b : Nat) (hb : b ≤ 16) (L : List Nat) :
    ∀ acc : Nat, (∀ d ∈ L, d < b) →
      natOfDigitsAux b acc (L.map digitToChar) =
        some (L.foldl (fun a d => a * b + d) acc) := by
  induction L with
  | nil => intro acc _; simp [natOfDigitsAux]
  | cons d rest ih =>
    intro acc hmem
    have hd : d < b := hmem d (by simp)
    simp only [List.map_cons, natOfDigitsAux, digitVal?_digitToChar b d hb hd,
      List.foldl_cons]
    exact ih (acc * b + d) (fun x hx => hmem x (by simp [hx]))

theorem foldr_eq_ofDigits (b : Nat) (L : List Nat) :
    L.foldr (fun d a => a * b + d) 0 = Nat.ofDigits b L := by
  induction L with
  | nil => simp [Nat.ofDigits]
  | cons d rest ih =>
    simp [List.foldr_cons, ih, Nat.ofDigits_cons]
    ring

theorem natOfDigits?_natDigitsChars (b n : Nat) (hb2 : 2 ≤ b) (hb16 : b ≤ 16) :
    natOfDigits? b (natDigitsChars b n) = some n := by
  by_cases hn : n = 0
  · subst hn
    have h0 : digitVal? b '0' = some 0 := by
      simp [digitVal?, charHexVal?]; omega
    simp [natDigitsChars, natOfDigits?, natOfDigitsAux, h0]
  · have hb1 : 1 < b := by omega
    have hchars : natDigitsChars b n = ((Nat.digits b n).reverse.map digitToChar) := by
      simp [natDigitsChars, hn]
    have hne : Nat.digits b n ≠ [] := Nat.digits_ne_nil_iff_ne_zero.mpr hn
    have hmem : ∀ d ∈ (Nat.digits b n).reverse, d < b := by
      intro d hd
      exact Nat.digits_lt_base hb1 (List.mem_reverse.mp hd)
    have haux := natOfDigitsAux_map b hb16 ((Nat.digits b n).reverse) 0 hmem
    have hfold : (Nat.digits b n).reverse.foldl (fun a d => a * b + d) 0 = n := by
      rw [List.foldl_reverse]
      calc (Nat.digits b n).foldr (fun x y => y * b + x) 0
          = Nat.ofDigits b (Nat.digits b n) := foldr_eq_ofDigits b (Nat.digits b n)
        _ = n := Nat.ofDigits_digits b n
    rw [hchars]
    have hne' : (Nat.digits b n).reverse.map digitToChar ≠ [] := by
      simp [hne]
    cases hcs : (Nat.digits b n).reverse.map digitToChar with
    | nil => exact absurd hcs hne'
    | cons c cs =>
      rw [← hcs]
      rw [hcs] at haux ⊢
      simpa [natOfDigits?, hfold] using haux

theorem digitToChar_not_sign (d : Nat) : digitToChar d ≠ '-' ∧ digitToChar d ≠ '+' := by
  unfold digitToChar
  split <;> exact ⟨by decide, by decide⟩

theorem natDigitsChars_head_not_sign (b n : Nat) (c : Char)
    (h : (natDigitsChars b n).head? = some c) : c ≠ '-' ∧ c ≠ '+' := by
  by_cases hn : n = 0
  · subst hn
    simp [natDigitsChars] at h
    subst h
    exact ⟨by decide, by decide⟩
  · simp only [natDigitsChars, hn, if_false] at h
    cases hL : (Nat.digits b n).reverse with
    | nil => rw [hL] at h; simp at h
    | cons d ds =>
      rw [hL] at h
      simp at h
      rw [← h]
      exact digitToChar_not_sign d

theorem from_str_radix_natDigitsChars (b : Nat) (hb2 : 2 ≤ b) (hb16 : b ≤ 16)
    (n : Nat) (hn : (n : Int) ≤ 2 ^ 63 - 1) :
    from_str_radix b (natDigitsChars b n) = some (n : Int) := by
  simp [from_str_radix, natOfDigits?_natDigitsChars b n hb2 hb16]
  omega

theorem radixLiteral_head_neg (marker : Char) (v : Int) (ds : List Char) (hv : v < 0) :
    (radixLiteral marker v ds).head? = some '-' := by
  simp [radixLiteral, hv]

theorem radixLiteral_head_nonneg (marker : Char) (v : Int) (ds : List Char) (hv : ¬v < 0) :
    (radixLiteral marker v ds).head? = some '0' := by
  simp [radixLiteral, hv]

theorem radixLiteral_drop_neg (marker : Char) (v : Int) (ds : List Char) (hv : v < 0) :
    (radixLiteral marker v ds).drop 3 = ds := by
  simp [radixLiteral, hv]

theorem radixLiteral_drop_nonneg (marker : Char) (v : Int) (ds : List Char) (hv : ¬v < 0) :
    (radixLiteral marker v ds).drop 2 = ds := by
  simp [radixLiteral, hv]

/-- Shared evaluation of the prefixed-radix callback body (the common shape of
`lexHexInt`, `lexBinaryInt`, `lexOctalInt`) on a well-formed literal. -/
theorem lexRadix_eval (base : Nat) (hb2 : 2 ≤ base) (hb16 : base ≤ 16)
    (marker : Char) (v : Int) (ds : List Char)
    (hlow : -(2 ^ 63) < v) (hhigh : v < 2 ^ 63)
    (hds : stripUnderscores ds = natDigitsChars base v.natAbs) :
    (match from_str_radix base
        (stripUnderscores (if (radixLiteral marker v ds).head? = some '-' then
          (radixLiteral marker v ds).drop 3 else (radixLiteral marker v ds).drop 2)) with
      | none => none
      | some value =>
        some (if (radixLiteral marker v ds).head? = some '-' then -value else value))
      = some v := by
  by_cases hv : v < 0
  · rw [radixLiteral_head_neg marker v ds hv, radixLiteral_drop_neg marker v ds hv]
    have hbound : (v.natAbs : Int) ≤ 2 ^ 63 - 1 := by omega
    rw [if_pos rfl, hds, from_str_radix_natDigitsChars base hb2 hb16 v.natAbs hbound]
    have : -(v.natAbs : Int) = v := by omega
    simp [this]
    rw [abs_of_neg hv]
    ring
  · rw [radixLiteral_head_nonneg marker v ds hv, radixLiteral_drop_nonneg marker v ds hv]
    have hne : ¬(some '0' = some '-') := by decide
    have hbound : (v.natAbs : Int) ≤ 2 ^ 63 - 1 := by omega
    rw [if_neg hne, hds, from_str_radix_natDigitsChars base hb2 hb16 v.natAbs hbound]
    have : (v.natAbs : Int) = v := by omega
    simp [hne, this]

/-- Evaluation of the decimal callback on a well-formed literal (including
`i64::MIN`, which the decimal path parses sign-and-all, unlike the
prefixed-radix callbacks). -/
theorem lexInt_eval (v : Int) (ds : List Char)
    (hlow : -(2 ^ 63) ≤ v) (hhigh : v < 2 ^ 63)
    (hds : stripUnderscores ds = natDigitsChars 10 v.natAbs) :
    lexInt (decLiteral v ds) = some v := by
  by_cases hv : v < 0
  · have hlit : decLiteral v ds = '-' :: ds := by simp [decLiteral, hv]
    have hstrip : stripUnderscores ('-' :: ds) = '-' :: stripUnderscores ds := by
      simp [stripUnderscores]
    rw [lexInt, hlit, hstrip, hds, parse_i64]
    simp only [List.head?_cons, if_pos rfl, List.tail_cons]
    rw [natOfDigits?_natDigitsChars 10 v.natAbs (by omega) (by omega)]
    have hbound : (v.natAbs : Int) ≤ 2 ^ 63 := by omega
    have hval : -(v.natAbs : Int) = v := by omega
    simp [hbound, hval]
    refine ⟨by omega, ?_⟩
    rw [abs_of_neg hv]
    ring
  · have hlit : decLiteral v ds = ds := by simp [decLiteral, hv]
    rw [lexInt, hlit, hds]
    have hne : natDigitsChars 10 v.natAbs ≠ [] := by
      by_cases hn : v.natAbs = 0 <;> simp [natDigitsChars, hn, Nat.digits_ne_nil_iff_ne_zero]
    cases hc : (natDigitsChars 10 v.natAbs).head? with
    | none => exact absurd (List.head?_eq_none_iff.mp hc) hne
    | some c =>
      have hsign := natDigitsChars_head_not_sign 10 v.natAbs c hc
      rw [parse_i64, hc]
      have h1 : ¬(some c = some '-') := by simp [hsign.1]
      have h2 : ¬(some c = some '+') := by simp [hsign.2]
      rw [if_neg h1, if_neg h2,
        natOfDigits?_natDigitsChars 10 v.natAbs (by omega) (by omega)]
      have hbound : (v.natAbs : Int) ≤ 2 ^ 63 - 1 := by omega
      have hval : (v.natAbs : Int) = v := by omega
      simp [hbound, hval]
      omega

/- ### Evaluator lemmas -/

/-- A field list with no last occurrence of `k` does not bind `k`. -/
theorem lastField_none_hasKey (k : String) :
    ∀ fields : List (String × PklExpr), lastField fields k = none → hasKey fields k = false := by
  intro fields
  induction fields with
  | nil => intro _; rfl
  | cons p rest ih =>
    obtain ⟨n, e⟩ := p
    intro h
    rw [lastField] at h
    cases hl : lastField rest k with
    | some e2 => rw [hl] at h; exact absurd h (by simp)
    | none =>
      rw [hl] at h
      by_cases hnk : n = k
      · rw [if_pos hnk] at h; exact absurd h (by simp)
      · simp [hasKey, hnk, ih hl]

/-- Lookup characterisation of the field-overlay loop: on success, a key not
bound by the new fields keeps its value from the base map, and a key bound by
the new fields holds the evaluation of its LAST occurrence. -/
theorem evalFieldsInto_lookup (vars : List (String × PklValue))
    (fields : List (String × PklExpr)) :
    ∀ acc m', evalFieldsInto vars acc fields = .ok m' →
      ∀ k, (hasKey fields k = false → lookupMap m' k = lookupMap acc k)
        ∧ (∀ e, lastField fields k = some e →
            ∃ v, evalExpr vars e = .ok v ∧ lookupMap m' k = some v) := by
  induction fields with
  | nil =>
    intro acc m' h k
    simp [evalFieldsInto] at h
    subst h
    exact ⟨fun _ => rfl, fun e he => by simp [lastField] at he⟩
  | cons p rest ih =>
    obtain ⟨n, e0⟩ := p
    intro acc m' h k
    rw [evalFieldsInto] at h
    cases hv : evalExpr vars e0 with
    | error err => rw [hv] at h; exact absurd h (by simp)
    | ok v0 =>
      rw [hv] at h
      have hrec := ih (insertMap acc n v0) m' h k
      constructor
      · intro hnk
        simp only [hasKey, Bool.or_eq_false_iff, decide_eq_false_iff_not] at hnk
        rw [hrec.1 hnk.2, lookupMap_insertMap]
        simp [hnk.1]
      · intro e he
        rw [lastField] at he
        cases hl : lastField rest k with
        | some e2 =>
          rw [hl] at he
          simp at he
          subst he
          exact hrec.2 _ hl
        | none =>
          rw [hl] at he
          by_cases hnk : n = k
          · rw [if_pos hnk] at he
            simp at he
            subst he
            have hrest : hasKey rest k = false := lastField_none_hasKey k rest hl
            refine ⟨v0, hv, ?_⟩
            rw [hrec.1 hrest, lookupMap_insertMap]
            simp [hnk]
          · rw [if_neg hnk] at he
            exact absurd he (by simp)

/-- Statement processing composes over list append (the `in_body` flag and the
table thread through). -/
theorem runStmtsF_append (env : Env) (importFn : String → Span → PklResult Unit)
    (xs ys : List PklStatement) :
    ∀ t b, runStmtsF env importFn (xs ++ ys) t b =
      match runStmtsF env importFn xs t b with
      | .error e => .error e
      | .ok (t', b') => runStmtsF env importFn ys t' b' := by
  induction xs with
  | nil => intro t b; simp [runStmtsF]
  | cons s xs ih =>
    intro t b
    cases s with
    | Constant name expr r =>
      rw [List.cons_append, runStmtsF, runStmtsF]
      cases hv : t.evaluate expr with
      | error e => rfl
      | ok v => exact ih (t.insert name v) true
    | Import value loc rng =>
      rw [List.cons_append, runStmtsF, runStmtsF]
      by_cases hb : b
      · simp [hb]
      · simp only [hb, if_false, Bool.false_eq_true]
        cases hi : importFn value rng with
        | error e => rfl
        | ok u => exact ih t false

/- ### Claim theorems -/

/-- Document for claim C1: statement 0 succeeds, statement 1 fails with an
unknown variable. -/
def docC1 : List PklStatement :=
  [.Constant "a" (.Value (.Int 1 sp0)) sp0,
   .Constant "b" (.Identifier "zzz" sp0) sp0]

/-- Environment whose parse oracle maps the source "doc" to `docC1`. -/
def envC1 : Env :=
  ⟨fun _ => none, fun s => if s = "doc" then .ok docC1 else .error ("no parse oracle", sp0)⟩

/-- C1 counterexample: in the document `a = 1`, `b = zzz` statement 0 succeeds
and statement 1 fails, yet after the failed `Pkl::parse` the interpreter's
table does NOT contain the binding `a = 1`: `self.table` is only assigned on
success (`self.table = ast_to_table(parsed)?`), so the table is left at its
previous (here: empty) contents, contradicting the claim that it is left
partially populated. -/
theorem C1_counterexample :
    (Pkl.parse envC1 1 Pkl.new "doc").1 = .error ("unknown variable `zzz`", sp0)
    ∧ (Pkl.parse envC1 1 Pkl.new "doc").2 = Pkl.new
    ∧ ¬((Pkl.parse envC1 1 Pkl.new "doc").2.table.get "a" = some (.Int 1)) := by
  refine ⟨rfl, rfl, ?_⟩
  have h0 : (Pkl.parse envC1 1 Pkl.new "doc").2.table.get "a" = none := rfl
  rw [h0]
  simp

/-- C1 (amended): when evaluation fails on a statement, the failed
`Pkl::parse` call leaves the interpreter exactly at its previous state — the
partially populated table built inside `ast_to_table` (which does hold the
bindings of the successful statements `0..k-1`, as the second conjunct shows
by running the failing statement against precisely that table) is discarded
by the `?` early return, not installed into `self.table`. -/
theorem C1_failed_parse_keeps_previous_table :
    (∀ (env : Env) (fuel : Nat) (p : Pkl) (source : String) (err : String × Span),
      (Pkl.parse env fuel p source).1 = .error err →
      (Pkl.parse env fuel p source).2 = p)
    ∧ (∀ (env : Env) (fuel : Nat) (pre : List PklStatement) (t : PklTable) (b : Bool)
        (name : String) (e : PklExpr) (r : Span) (err : String × Span),
        runStmts env fuel pre PklTable.new false = .ok (t, b) →
        t.evaluate e = .error err →
        ast_to_table env fuel (pre ++ [.Constant name e r]) = .error err) := by
  constructor
  · intro env fuel p source err h
    cases hg : env.generate_ast source with
    | error e => simp [Pkl.parse, hg]
    | ok parsed =>
      cases ha : ast_to_table env fuel parsed with
      | error e2 => simp [Pkl.parse, hg, ha]
      | ok tb => simp [Pkl.parse, hg, ha] at h
  · intro env fuel pre t b name e r err hpre heval
    unfold ast_to_table runStmts
    unfold runStmts at hpre
    rw [runStmtsF_append env (tableImport env fuel) pre [.Constant name e r]
      PklTable.new false, hpre]
    show (match runStmtsF env (tableImport env fuel) [.Constant name e r] t b with
      | .error e2 => .error e2
      | .ok (table, _) => .ok table) = Except.error err
    rw [runStmtsF, heval]

/-- C1 witness: the general statement applied to the concrete failing
document. -/
theorem C1_witness :
    (Pkl.parse envC1 1 Pkl.new "doc").2 = Pkl.new
    ∧ ast_to_table envC1 1
        ([.Constant "a" (.Value (.Int 1 sp0)) sp0] ++
          [.Constant "b" (.Identifier "zzz" sp0) sp0])
        = .error ("unknown variable `zzz`", sp0) :=
  ⟨C1_failed_parse_keeps_previous_table.1 envC1 1 Pkl.new "doc"
      ("unknown variable `zzz`", sp0) rfl,
    C1_failed_parse_keeps_previous_table.2 envC1 1
      [.Constant "a" (.Value (.Int 1 sp0)) sp0] ⟨[("a", .Int 1)], []⟩ true
      "b" (.Identifier "zzz" sp0) sp0 ("unknown variable `zzz`", sp0) rfl rfl⟩

/-- Imported document for claim C2: `x = 1`. -/
def docDep : List PklStatement := [.Constant "x" (.Value (.Int 1 sp0)) sp0]

/-- Environment for claim C2: the file "dep.pkl" holds the text "x = 1",
which parses to `docDep`. -/
def envC2 : Env :=
  ⟨fun name => if name = "dep.pkl" then some "x = 1" else none,
   fun content => if content = "x = 1" then .ok docDep else .error ("no parse oracle", sp0)⟩

/-- C2 (code bug): importing "dep.pkl" — whose content reads and parses
successfully and binds `x = 1` (third conjunct) — succeeds but leaves the
current table EMPTY: `PklTable::import` parses the file, prints the resulting
bindings and discards them ("it does not import for the moment, issue with
lifetimes"), never calling `extends`; the merge the claim describes
(`PklTable::extends`) would have made `x` visible (fourth conjunct). -/
theorem C2_import_discards_bindings :
    ast_to_table envC2 1 [.Import "dep.pkl" none sp0] = .ok PklTable.new
    ∧ PklTable.new.get "x" = none
    ∧ ast_to_table envC2 1 docDep = .ok ⟨[("x", .Int 1)], []⟩
    ∧ (PklTable.new.extends_table ⟨[("x", .Int 1)], []⟩).get "x" = some (.Int 1) :=
  ⟨rfl, rfl, rfl, rfl⟩

/-- C3 (code bug): the duration conversion multiplies by the Rust literals
`10e-9`, `10e-6`, `10e-3` for ns/us/ms — i.e. by `10⁻⁸`, `10⁻⁵`, `10⁻²`, ten
times the factors the claim states (`1.ns` becomes `10⁻⁸` seconds, not
`10⁻⁹`).  The remaining factors are as claimed: `10.min` is exactly 600
seconds, `3.mb` is exactly 3,000,000 bytes and `5.gib` is exactly `5 · 1024³`
bytes. -/
theorem C3_duration_unit_factor_bug :
    (PklDuration.from_int_and_unit 1 .NS).duration = 1 / 10 ^ 8
    ∧ (1 : ℚ) / 10 ^ 8 ≠ 1 / 10 ^ 9
    ∧ (PklDuration.from_int_and_unit 1 .US).duration = 1 / 10 ^ 5
    ∧ (PklDuration.from_int_and_unit 1 .MS).duration = 1 / 10 ^ 2
    ∧ (PklDuration.from_int_and_unit 10 .MIN).duration = 600
    ∧ (PklDuration.from_int_and_unit 10 .S).duration = 10
    ∧ (PklDuration.from_int_and_unit 10 .H).duration = 36000
    ∧ (PklDuration.from_int_and_unit 10 .D).duration = 864000
    ∧ (Byte.from_value_and_unit 3 .MB).bytes = 3000000
    ∧ (Byte.from_value_and_unit 5 .GiB).bytes = 5 * 1024 ^ 3 := by
  refine ⟨?_, by norm_num, ?_, ?_, ?_, ?_, ?_, ?_, ?_, ?_⟩ <;>
    first
      | (norm_num [PklDuration.from_int_and_unit, PklDuration.duration]; done)
      | (norm_num [Byte.from_value_and_unit, rat_as_u64]; omega)

/-- Document for claim C4: `z = { a = 1 } { a = 2 }` as parsed (the second
block wraps the first as `AmendedObject`). -/
def docZ : List PklStatement :=
  [.Constant "z"
    (.Value (.AmendedObject (.Object [("a", .Value (.Int 1 sp0))] sp0)
      [("a", .Value (.Int 2 sp0))] sp0)) sp0]

/-- Document for claim C4 with the two blocks swapped:
`z = { a = 2 } { a = 1 }`. -/
def docZswap : List PklStatement :=
  [.Constant "z"
    (.Value (.AmendedObject (.Object [("a", .Value (.Int 2 sp0))] sp0)
      [("a", .Value (.Int 1 sp0))] sp0)) sp0]

/-- C4: chained amendment applies left-to-right.  Generally, evaluating
`AmendedObject base fields` evaluates the base (the earlier blocks) and then
overlays `fields` on the result, a key bound by `fields` taking the
evaluation of its last occurrence and every other key keeping the base's
value; concretely, `z = { a = 1 } { a = 2 }` evaluates to `{a: 2}`, the
swapped program evaluates to `{a: 1}`, and the two results differ — the fold
is not commutative. -/
theorem C4_chained_amendment_left_to_right :
    (∀ (t : PklTable) (a : AstPklValue) (fields : List (String × PklExpr)) (r : Span)
      (m : List (String × PklValue)),
      evalValue t.vars a = .ok (.Object m) →
      (t.evaluate (.Value (.AmendedObject a fields r)) =
        match evalFieldsInto t.vars m fields with
        | .error e => .error e
        | .ok m' => .ok (.Object m'))
      ∧ (∀ m', evalFieldsInto t.vars m fields = .ok m' →
          ∀ k, (hasKey fields k = false → lookupMap m' k = lookupMap m k)
            ∧ (∀ e, lastField fields k = some e →
                ∃ v, evalExpr t.vars e = .ok v ∧ lookupMap m' k = some v)))
    ∧ (∃ T, ast_to_table env0 1 docZ = .ok T
        ∧ T.get "z" = some (.Object [("a", .Int 2)]))
    ∧ (∃ T, ast_to_table env0 1 docZswap = .ok T
        ∧ T.get "z" = some (.Object [("a", .Int 1)]))
    ∧ some (PklValue.Object [("a", PklValue.Int 2)])
        ≠ some (PklValue.Object [("a", PklValue.Int 1)]) := by
  refine ⟨?_, ⟨⟨[("z", .Object [("a", .Int 2)])], []⟩, rfl, rfl⟩,
    ⟨⟨[("z", .Object [("a", .Int 1)])], []⟩, rfl, rfl⟩, by simp⟩
  intro t a fields r m h
  constructor
  · rw [PklTable.evaluate, evalExpr, evalValue, h]
  · intro m' hm' k
    exact evalFieldsInto_lookup t.vars fields m m' hm' k

/-- C4 witness: the general statement applied to the base block `{ a = 1 }`
and the overlay block `{ a = 2 }` over the empty table. -/
theorem C4_witness :
    PklTable.new.evaluate
      (.Value (.AmendedObject (.Object [("a", .Value (.Int 1 sp0))] sp0)
        [("a", .Value (.Int 2 sp0))] sp0)) =
      match evalFieldsInto PklTable.new.vars [("a", PklValue.Int 1)]
          [("a", .Value (.Int 2 sp0))] with
      | .error e => .error e
      | .ok m' => .ok (.Object m') :=
  (C4_chained_amendment_left_to_right.1 PklTable.new
    (.Object [("a", .Value (.Int 1 sp0))] sp0) [("a", .Value (.Int 2 sp0))] sp0
    [("a", PklValue.Int 1)] rfl).1

/-- Document for claim C5: `x = { a = 1 }` then `y = (x) { b = 2 }`. -/
def docXY : List PklStatement :=
  [.Constant "x" (.Value (.Object [("a", .Value (.Int 1 sp0))] sp0)) sp0,
   .Constant "y" (.Value (.AmendingObject "x" [("b", .Value (.Int 2 sp0))] sp0)) sp0]

/-- C5: amending a named object merges on a clone.  Generally, when `x` is
bound to an object, evaluating `(x) { fields }` overlays the evaluated fields
on a copy of `x`'s field map (new fields win on collision, untouched keys
keep `x`'s values) — the table binding of `x` itself is not written at all
(evaluation is a `&self` read, the model a pure function of the table);
concretely, after the document `x = { a = 1 }`, `y = (x) { b = 2 }` the final
table holds `y = {a: 1, b: 2}` AND still `x = {a: 1}`. -/
theorem C5_amending_object_clones_base :
    (∀ (t : PklTable) (x : String) (fields : List (String × PklExpr)) (rng : Span)
      (m : List (String × PklValue)),
      t.get x = some (.Object m) →
      (t.evaluate (.Value (.AmendingObject x fields rng)) =
        match evalFieldsInto t.vars m fields with
        | .error e => .error e
        | .ok m' => .ok (.Object m'))
      ∧ (∀ m', evalFieldsInto t.vars m fields = .ok m' →
          ∀ k, (hasKey fields k = false → lookupMap m' k = lookupMap m k)
            ∧ (∀ e, lastField fields k = some e →
                ∃ v, evalExpr t.vars e = .ok v ∧ lookupMap m' k = some v)))
    ∧ (∃ T, ast_to_table env0 1 docXY = .ok T
        ∧ T.get "y" = some (.Object [("a", .Int 1), ("b", .Int 2)])
        ∧ T.get "x" = some (.Object [("a", .Int 1)])) := by
  refine ⟨?_, ⟨⟨[("x", .Object [("a", .Int 1)]),
    ("y", .Object [("a", .Int 1), ("b", .Int 2)])], []⟩, rfl, rfl, rfl⟩⟩
  intro t x fields rng m h
  have h' : lookupMap t.vars x = some (.Object m) := h
  constructor
  · rw [PklTable.evaluate, evalExpr, evalValue, h']
  · intro m' hm' k
    exact evalFieldsInto_lookup t.vars fields m m' hm' k

/-- C5 witness: the general statement applied to a table binding `x` to
`{a: 1}` and the overlay `{ b = 2 }`. -/
theorem C5_witness :
    PklTable.evaluate ⟨[("x", PklValue.Object [("a", PklValue.Int 1)])], []⟩
      (.Value (.AmendingObject "x" [("b", .Value (.Int 2 sp0))] sp0)) =
      match evalFieldsInto [("x", PklValue.Object [("a", PklValue.Int 1)])]
          [("a", PklValue.Int 1)] [("b", .Value (.Int 2 sp0))] with
      | .error e => .error e
      | .ok m' => .ok (.Object m') :=
  (C5_amending_object_clones_base.1 ⟨[("x", PklValue.Object [("a", PklValue.Int 1)])], []⟩
    "x" [("b", .Value (.Int 2 sp0))] sp0 [("a", PklValue.Int 1)] rfl).1

/-- C6: forward references fail.  If the statements before position `k`
evaluate successfully to the table `t` (which binds exactly the names of
statements `0..k-1`), statement `k` references an identifier `x` that `t`
does not bind, and `x` is only bound by a later statement, then the whole
evaluation fails with the unknown-variable error naming `x`, raised at the
reference's span. -/
theorem C6_forward_reference_unknown_variable :
    ∀ (env : Env) (fuel : Nat) (pre post : List PklStatement) (t : PklTable) (b : Bool)
      (name x : String) (rngId r : Span),
      runStmts env fuel pre PklTable.new false = .ok (t, b) →
      t.get x = none →
      x ∈ boundNames post →
      ast_to_table env fuel (pre ++ .Constant name (.Identifier x rngId) r :: post)
        = .error ("unknown variable `" ++ x ++ "`", rngId) := by
  intro env fuel pre post t b name x rngId r hpre hx _hpost
  unfold ast_to_table runStmts
  unfold runStmts at hpre
  rw [runStmtsF_append env (tableImport env fuel) pre
    (.Constant name (.Identifier x rngId) r :: post) PklTable.new false, hpre]
  have hx' : lookupMap t.vars x = none := hx
  show (match runStmtsF env (tableImport env fuel)
      (.Constant name (.Identifier x rngId) r :: post) t b with
    | .error e => .error e
    | .ok (table, _) => .ok table) = Except.error ("unknown variable `" ++ x ++ "`", rngId)
  rw [runStmtsF, PklTable.evaluate, evalExpr, hx']

/-- C6 witness: the general statement applied to the document `a = 1`,
`b = c`, `c = 2`, where `c` is referenced before it is bound. -/
theorem C6_witness :
    ast_to_table env0 1
      ([.Constant "a" (.Value (.Int 1 sp0)) sp0] ++
        .Constant "b" (.Identifier "c" sp0) sp0 ::
          [.Constant "c" (.Value (.Int 2 sp0)) sp0])
      = .error ("unknown variable `c`", sp0) :=
  C6_forward_reference_unknown_variable env0 1
    [.Constant "a" (.Value (.Int 1 sp0)) sp0]
    [.Constant "c" (.Value (.Int 2 sp0)) sp0]
    ⟨[("a", .Int 1)], []⟩ true "b" "c" sp0 sp0 rfl rfl (by simp [boundNames])

/-- C7 counterexample: `-0x8000000000000000` is the hexadecimal literal of
`i64::MIN = -2⁶³`, a value representable in 64 bits, yet the hex callback
does not produce it: the callback parses the magnitude `0x8000000000000000 =
2⁶³` as a positive `i64` BEFORE negating, `from_str_radix` overflows, and the
`.unwrap()` panics (`none` in the model).  The same failure hits the octal
and binary callbacks; only the decimal callback, which parses sign-and-all,
handles `i64::MIN`. -/
theorem C7_counterexample :
    lexHexInt ("-0x8000000000000000".toList) = none
    ∧ lexHexInt ("-0x8000000000000000".toList) ≠ some (-(2 ^ 63))
    ∧ lexOctalInt ("-0o1000000000000000000000".toList) = none
    ∧ lexBinaryInt
        ("-0b1000000000000000000000000000000000000000000000000000000000000000".toList)
        = none := by
  have h : lexHexInt ("-0x8000000000000000".toList) = none := rfl
  exact ⟨h, by rw [h]; simp, rfl, rfl⟩

/-- C7 (amended): the round-trip holds for every value in
`(-2⁶³, 2⁶³ - 1]` in all four bases — for any digit body `ds` that strips
(underscore removal) to the canonical digit string of `|v|`, tokenizing the
prefixed literal built from `ds` yields exactly `v` — and additionally for
`v = -2⁶³` in decimal; the prefixed-radix callbacks panic on `v = -2⁶³`
(see the counterexample). -/
theorem C7_amended_roundtrip :
    ∀ (v : Int) (ds : List Char),
      (-(2 ^ 63) < v → v < 2 ^ 63 →
        (stripUnderscores ds = natDigitsChars 10 v.natAbs →
          lexInt (decLiteral v ds) = some v)
        ∧ (stripUnderscores ds = natDigitsChars 16 v.natAbs →
          lexHexInt (radixLiteral 'x' v ds) = some v)
        ∧ (stripUnderscores ds = natDigitsChars 8 v.natAbs →
          lexOctalInt (radixLiteral 'o' v ds) = some v)
        ∧ (stripUnderscores ds = natDigitsChars 2 v.natAbs →
          lexBinaryInt (radixLiteral 'b' v ds) = some v))
      ∧ (v = -(2 ^ 63) → stripUnderscores ds = natDigitsChars 10 v.natAbs →
          lexInt (decLiteral v ds) = some v) := by
  intro v ds
  constructor
  · intro hlow hhigh
    refine ⟨fun hds => lexInt_eval v ds (by omega) hhigh hds,
      fun hds => ?_, fun hds => ?_, fun hds => ?_⟩
    · exact lexRadix_eval 16 (by norm_num) (by norm_num) 'x' v ds hlow hhigh hds
    · exact lexRadix_eval 8 (by norm_num) (by norm_num) 'o' v ds hlow hhigh hds
    · exact lexRadix_eval 2 (by norm_num) (by norm_num) 'b' v ds hlow hhigh hds
  · intro hmin hds
    exact lexInt_eval v ds (by omega) (by omega) hds

/-- C7 witness: the round-trip applied at the concrete value 0 in all four
bases (digit body `"0"`). -/
theorem C7_roundtrip_witness :
    lexInt (decLiteral 0 ['0']) = some 0
    ∧ lexHexInt (radixLiteral 'x' 0 ['0']) = some 0
    ∧ lexOctalInt (radixLiteral 'o' 0 ['0']) = some 0
    ∧ lexBinaryInt (radixLiteral 'b' 0 ['0']) = some 0 :=
  ⟨((C7_amended_roundtrip 0 ['0']).1 (by norm_num) (by norm_num)).1 rfl,
   ((C7_amended_roundtrip 0 ['0']).1 (by norm_num) (by norm_num)).2.1 rfl,
   ((C7_amended_roundtrip 0 ['0']).1 (by norm_num) (by norm_num)).2.2.1 rfl,
   ((C7_amended_roundtrip 0 ['0']).1 (by norm_num) (by norm_num)).2.2.2 rfl⟩

/-- C8 (code bug): the decimal literal `9999999999999999999999` denotes a
value not representable in `i64`, and tokenizing it PANICS — the logos
callback runs `clean_raw.parse::<i64>().unwrap()`, whose failure is an
unwrap panic (`none` here), not a `LexError` that a parser could propagate
as a span-tagged failure.  (The hex/octal/binary callbacks unwrap the same
way.) -/
theorem C8_overflow_panics_not_lexerror :
    lexInt ("9999999999999999999999".toList) = none
    ∧ lexHexInt ("0xFFFFFFFFFFFFFFFFF".toList) = none :=
  ⟨rfl, rfl⟩

/-- C9 counterexample: the evaluator's member dispatch (src/table.rs lines
191-216) has no arm for `Bool` bases — src/table.rs does not even declare the
`bool_api` module — so accessing `xor` on `true` falls into the catch-all and
fails with "Indexing of value … not yet supported"; no boolean method is
reachable through dispatch (and `MemberExpression` carries no argument list
at all). -/
theorem C9_counterexample :
    PklTable.new.evaluate (.MemberExpression (.Value (.Bool true sp0)) "xor" sp0 sp0)
      = .error ("Indexing of value 'Bool(true)' not yet supported", sp0) := rfl

/-- C9 (amended): the standalone `match_bool_methods_api` function implements
`xor`/`implies` with exact-arity and Bool-type validation before executing
the body (first four conjuncts), but the evaluator never routes boolean bases
(or any argument list) to it: member access on a `Bool` base always fails
with the catch-all "Indexing of value … not yet supported" error (last
conjunct). -/
theorem C9_bool_methods_validated_but_unrouted :
    (∀ (b other : Bool) (rng : Span),
      match_bool_methods_api b "xor" [.Bool other] rng = .ok (.Bool (Bool.xor b other)))
    ∧ (∀ (b other : Bool) (rng : Span),
      match_bool_methods_api b "implies" [.Bool other] rng = .ok (.Bool (!b || other)))
    ∧ (∀ (b : Bool) (rng : Span) (args : List PklValue), args.length ≠ 1 →
      match_bool_methods_api b "xor" args rng =
        .error ("Boolean expects 'xor' method to take exactly 1 argument(s)", rng))
    ∧ (∀ (b : Bool) (rng : Span) (v : PklValue), v.get_type ≠ "Bool" →
      match_bool_methods_api b "xor" [v] rng =
        .error ("xor method expects argument at index 0 to be of type Bool, but found "
          ++ v.get_type, rng))
    ∧ (∀ (t : PklTable) (b : Bool) (prop : String) (sp irng rng : Span),
      t.evaluate (.MemberExpression (.Value (.Bool b sp)) prop irng rng)
        = .error ("Indexing of value '" ++ debugRepr (.Bool b) ++ "' not yet supported",
            rng)) := by
  refine ⟨fun b other rng => rfl, fun b other rng => rfl, ?_, ?_, ?_⟩
  · intro b rng args h
    match args with
    | [] => rfl
    | [a] => exact absurd rfl h
    | a :: a2 :: rest => rfl
  · intro b rng v h
    simp only [match_bool_methods_api]
    rw [if_pos h]
  · intro t b prop sp irng rng
    have hb : evalExpr t.vars (.Value (.Bool b sp)) = .ok (.Bool b) := rfl
    rw [PklTable.evaluate, evalExpr, hb]

/-- C9 witness: the amended statement applied at concrete booleans, a
concrete empty argument list, a concrete `Int` argument and a concrete
dispatch attempt. -/
theorem C9_witness :
    match_bool_methods_api true "xor" [.Bool false] sp0 = .ok (.Bool true)
    ∧ match_bool_methods_api true "implies" [.Bool false] sp0 = .ok (.Bool false)
    ∧ match_bool_methods_api true "xor" [] sp0 =
        .error ("Boolean expects 'xor' method to take exactly 1 argument(s)", sp0)
    ∧ match_bool_methods_api true "xor" [.Int 0] sp0 =
        .error ("xor method expects argument at index 0 to be of type Bool, but found Int",
          sp0)
    ∧ PklTable.evaluate ⟨[], ["x"]⟩
        (.MemberExpression (.Value (.Bool false sp0)) "implies" sp0 sp0) =
        .error ("Indexing of value 'Bool(false)' not yet supported", sp0) :=
  ⟨C9_bool_methods_validated_but_unrouted.1 true false sp0,
   C9_bool_methods_validated_but_unrouted.2.1 true false sp0,
   C9_bool_methods_validated_but_unrouted.2.2.1 true sp0 [] (by decide),
   C9_bool_methods_validated_but_unrouted.2.2.2.1 true sp0 (.Int 0) (by decide),
   C9_bool_methods_validated_but_unrouted.2.2.2.2 ⟨[], ["x"]⟩ false "implies" sp0 sp0 sp0⟩

/-- C10: expression evaluation never mutates the table.  In the source
`evaluate` takes `&self`; in the model it is a pure function whose result
depends only on the variables map (first conjunct — in particular the
recorded import list is not even readable by evaluation).  At the statement
level, a failing evaluation aborts the run without any table escaping
(second conjunct), a successful evaluation hands the continuation exactly
`t.insert name v` of the pre-statement table `t` — the evaluation itself
contributed nothing but the value (third conjunct) — and an `Import`
statement either fails or passes the table through untouched (fourth
conjunct): the table changes only through `insert` between statements. -/
theorem C10_evaluate_pure_table_mutated_only_between_statements :
    (∀ t1 t2 : PklTable, t1.vars = t2.vars → ∀ e, t1.evaluate e = t2.evaluate e)
    ∧ (∀ (env : Env) (fuel : Nat) (name : String) (e : PklExpr) (r : Span)
        (rest : List PklStatement) (t : PklTable) (b : Bool) (err : String × Span),
        t.evaluate e = .error err →
        runStmts env fuel (.Constant name e r :: rest) t b = .error err)
    ∧ (∀ (env : Env) (fuel : Nat) (name : String) (e : PklExpr) (r : Span)
        (rest : List PklStatement) (t : PklTable) (b : Bool) (v : PklValue),
        t.evaluate e = .ok v →
        runStmts env fuel (.Constant name e r :: rest) t b =
          runStmts env fuel rest (t.insert name v) true)
    ∧ (∀ (env : Env) (fuel : Nat) (value : String) (loc : Option String) (r : Span)
        (rest : List PklStatement) (t : PklTable),
        (∃ err, runStmts env fuel (.Import value loc r :: rest) t false = .error err)
        ∨ runStmts env fuel (.Import value loc r :: rest) t false =
            runStmts env fuel rest t false) := by
  refine ⟨?_, ?_, ?_, ?_⟩
  · intro t1 t2 h e
    rw [PklTable.evaluate, PklTable.evaluate, h]
  · intro env fuel name e r rest t b err h
    unfold runStmts
    rw [runStmtsF, h]
  · intro env fuel name e r rest t b v h
    unfold runStmts
    rw [runStmtsF, h]
  · intro env fuel value loc r rest t
    cases hi : tableImport env fuel value r with
    | error e => exact Or.inl ⟨e, by unfold runStmts; simp [runStmtsF, hi]⟩
    | ok u => exact Or.inr (by unfold runStmts; simp [runStmtsF, hi])

/-- C10 witness: the frame statement applied to concrete tables (differing
only in the import list), a concrete failing statement, a concrete
succeeding statement and a concrete import. -/
theorem C10_witness :
    (PklTable.evaluate ⟨[("a", PklValue.Int 1)], []⟩ (.Identifier "a" sp0)
      = PklTable.evaluate ⟨[("a", PklValue.Int 1)], ["zzz"]⟩ (.Identifier "a" sp0))
    ∧ runStmts env0 1 [.Constant "b" (.Identifier "q" sp0) sp0] PklTable.new false
        = .error ("unknown variable `q`", sp0)
    ∧ runStmts env0 1 [.Constant "b" (.Value (.Int 7 sp0)) sp0] PklTable.new false
        = runStmts env0 1 [] (PklTable.new.insert "b" (.Int 7)) true
    ∧ ((∃ err, runStmts env0 1 [.Import "d" none sp0] PklTable.new false = .error err)
        ∨ runStmts env0 1 [.Import "d" none sp0] PklTable.new false
            = runStmts env0 1 [] PklTable.new false) :=
  ⟨C10_evaluate_pure_table_mutated_only_between_statements.1 _ _ rfl _,
   C10_evaluate_pure_table_mutated_only_between_statements.2.1 env0 1 "b"
     (.Identifier "q" sp0) sp0 [] PklTable.new false ("unknown variable `q`", sp0) rfl,
   C10_evaluate_pure_table_mutated_only_between_statements.2.2.1 env0 1 "b"
     (.Value (.Int 7 sp0)) sp0 [] PklTable.new false (.Int 7) rfl,
   C10_evaluate_pure_table_mutated_only_between_statements.2.2.2 env0 1 "d" none sp0 []
     PklTable.new⟩
